import Mathlib

set_option maxHeartbeats 1000000

namespace StealthyScraper

/-- Model of a utls ClientHelloID constant: an opaque descriptor identifier
consisting of the client family and version strings.  The five constants
below mirror the ones the source selects (requester.go, lines 28 to 43). -/
structure ClientHelloID where
  client : String
  version : String
deriving DecidableEq

/-- utls descriptor constant for the chrome profile. -/
def HelloChrome_108 : ClientHelloID := { client := "Chrome", version := "108" }

/-- utls descriptor constant for the firefox profile. -/
def HelloFirefox_108 : ClientHelloID := { client := "Firefox", version := "108" }

/-- utls descriptor constant for the ios profile. -/
def HelloIOS_16 : ClientHelloID := { client := "iOS", version := "16" }

/-- utls descriptor constant for the safari profile. -/
def HelloSafari_16_0 : ClientHelloID := { client := "Safari", version := "16.0" }

/-- utls descriptor constant for the random profile; the descriptor identifier
is itself a fixed constant, the randomization happening per connection inside
the library when the handshake is driven. -/
def HelloRandomized : ClientHelloID := { client := "Randomized", version := "0" }

/-- ASCII case folding of one character, the fragment of Go strings.ToLower
relevant here (profile names, methods and header keys are ASCII). -/
def toLowerChar (c : Char) : Char :=
  if 65 ≤ c.toNat ∧ c.toNat ≤ 90 then Char.ofNat (c.toNat + 32) else c

/-- Embedding of Go strings.ToLower on ASCII strings. -/
def lowerStr (s : String) : String :=
  String.mk (s.data.map toLowerChar)

/-- ASCII upper casing of one character (fragment of Go strings.ToUpper). -/
def toUpperChar (c : Char) : Char :=
  if 97 ≤ c.toNat ∧ c.toNat ≤ 122 then Char.ofNat (c.toNat - 32) else c

/-- Embedding of Go strings.ToUpper on ASCII strings. -/
def upperStr (s : String) : String :=
  String.mk (s.data.map toUpperChar)

/-- The profile selection switch of SendRequest (requester.go, lines 28 to 43):
a case insensitive comparison against the five supported names, any other
name falling through to the default arm, which selects chrome. -/
def selectClientHello (profile : String) : ClientHelloID :=
  let p := lowerStr profile
  if p = "chrome" then HelloChrome_108
  else if p = "firefox" then HelloFirefox_108
  else if p = "ios" then HelloIOS_16
  else if p = "safari" then HelloSafari_16_0
  else if p = "random" then HelloRandomized
  else HelloChrome_108

/-- Modelled from the spec: section 4.1 gives the profile registry the
contract resolve(name) returning a profile together with a bool that is
false exactly on the fallback; the source switch (requester.go, lines 28
to 43) carries no such flag, its default arm being the fallback, so the
Bool component here records whether one of the five named arms matched. -/
def resolveClientHello (profile : String) : ClientHelloID × Bool :=
  let p := lowerStr profile
  if p = "chrome" then (HelloChrome_108, true)
  else if p = "firefox" then (HelloFirefox_108, true)
  else if p = "ios" then (HelloIOS_16, true)
  else if p = "safari" then (HelloSafari_16_0, true)
  else if p = "random" then (HelloRandomized, true)
  else (HelloChrome_108, false)

/-- Valid header field byte per Go net/textproto (the token characters of
RFC 7230): letters, digits and the punctuation listed in isTokenTable.
Code 39 is the apostrophe and code 96 the grave accent. -/
def validHeaderFieldChar (c : Char) : Bool :=
  c.isAlphanum || c == '!' || c == '#' || c == '$' || c == '%' || c == '&' ||
    c.toNat == 39 || c == '*' || c == '+' || c == '-' || c == '.' ||
    c == '^' || c == '_' || c.toNat == 96 || c == '|' || c == '~'

/-- Character by character canonicalization used by
textproto.CanonicalMIMEHeaderKey: upper case at the start and after each
hyphen, lower case elsewhere. -/
def canonChars : Bool → List Char → List Char
  | _, [] => []
  | upper, c :: rest =>
    (if upper then toUpperChar c else toLowerChar c) :: canonChars (c == '-') rest

/-- Embedding of Go textproto.CanonicalMIMEHeaderKey: a key containing any
invalid header field byte is returned unchanged, otherwise it is put in
canonical form (http.Header.Set and Get canonicalize through this). -/
def canonicalMIMEHeaderKey (s : String) : String :=
  if s.data.all validHeaderFieldChar then String.mk (canonChars true s.data) else s

/-- Model of Go http.Header: an association list from canonical keys to the
lists of values stored under them (Go: map from string to string slice). -/
abbrev HeaderMap := List (String × List String)

/-- Embedding of Go http.Header.Set: canonicalize the key and replace
whatever was stored under it by the one element value list. -/
def headerSet (h : HeaderMap) (key value : String) : HeaderMap :=
  h.filter (fun p => p.1 != canonicalMIMEHeaderKey key) ++
    [(canonicalMIMEHeaderKey key, [value])]

/-- Embedding of Go http.Header.Values: the value list stored under the
canonicalized key, if any. -/
def headerGet (h : HeaderMap) (key : String) : Option (List String) :=
  (h.find? (fun p => p.1 == canonicalMIMEHeaderKey key)).map Prod.snd

/-- Exact key lookup in a Go map modelled as an association list
(params.Headers is a plain map, looked up without canonicalization). -/
def mapLookup (m : List (String × String)) (k : String) : Option String :=
  (m.find? (fun p => p.1 == k)).map Prod.snd

/-- The RequestParams struct of requester.go (Headers, a Go map, is
modelled as an association list whose exact keys are unique). -/
structure RequestParams where
  url : String
  method : String
  ja3Profile : String
  headers : List (String × String)
  requestBody : String
deriving DecidableEq

/-- The assembled outgoing request as handed to the HTTP client: method,
target URL, body bytes and header map. -/
structure Request where
  method : String
  url : String
  body : String
  header : HeaderMap
deriving DecidableEq

/-- Default User-Agent switch of SendRequest (requester.go, lines 106 to
118): chrome, firefox and safari have arms, every other lower cased profile
name (ios and random included) takes the default arm, which is the chrome
string. -/
def chromeUA : String :=
  "Mozilla/5.0 (Windows NT 10.0; Win64; x64) AppleWebKit/537.36 (KHTML, like Gecko) Chrome/108.0.0.0 Safari/537.36"

/-- Firefox default identification string (requester.go, line 112). -/
def firefoxUA : String :=
  "Mozilla/5.0 (Windows NT 10.0; Win64; x64; rv:108.0) Gecko/20100101 Firefox/108.0"

/-- Safari default identification string (requester.go, line 114). -/
def safariUA : String :=
  "Mozilla/5.0 (Macintosh; Intel Mac OS X 10_15_7) AppleWebKit/605.1.15 (KHTML, like Gecko) Version/16.1 Safari/605.1.15"

/-- The default User-Agent value chosen by the switch for a profile name. -/
def defaultUserAgent (profile : String) : String :=
  let p := lowerStr profile
  if p = "chrome" then chromeUA
  else if p = "firefox" then firefoxUA
  else if p = "safari" then safariUA
  else chromeUA

/-- Embedding of Go http validMethod (net/http/request.go): nonempty and
every character a token character. -/
def validMethod (m : String) : Bool :=
  m != "" && m.data.all validHeaderFieldChar

/-- Folding req.Header.Set over the caller supplied headers, the final loop
of SendRequest (requester.go, lines 120 to 123).  The list order stands in
for Go's unspecified map iteration order; the theorems below only draw
conclusions that are independent of that order. -/
def applyHeaders (hs : List (String × String)) (h0 : HeaderMap) : HeaderMap :=
  hs.foldl (fun h p => headerSet h p.1 p.2) h0

/-- The request assembly portion of SendRequest (requester.go, lines 93 to
123): the body reader is the supplied body string or the empty string;
http.NewRequest substitutes GET for an empty method, rejects methods with
non token characters, and stores the URL as given (a URL parse failure
would also error, and no success path rewrites the scheme; URL parsing is
not otherwise modelled); the default User-Agent is set only when the exact
key User-Agent is absent from the caller map; finally every caller header
is applied through Header.Set. -/
def buildRequest (params : RequestParams) : Option Request :=
  let method := if params.method = "" then "GET" else params.method
  if validMethod method then
    let withUA : HeaderMap :=
      if (mapLookup params.headers "User-Agent").isSome then []
      else headerSet [] "User-Agent" (defaultUserAgent params.ja3Profile)
    some { method := method
           url := params.url
           body := if params.requestBody != "" then params.requestBody else ""
           header := applyHeaders params.headers withUA }
  else
    none

/-- The RequestParams constructed by the CLI shell (main.go, lines 64 to
71): the method flag is upper cased with strings.ToUpper, everything else
is passed through. -/
def cliRequestParams (url method ja3 : String) (headers : List (String × String))
    (data : String) : RequestParams :=
  { url := url
    method := upperStr method
    ja3Profile := ja3
    headers := headers
    requestBody := data }

/-- The canonical header names of the caller map are pairwise distinct.
This is the well-definedness condition behind the phrase: the caller's
value for that key.  Two caller map keys that differ only in spelling but
canonicalize to the same header name would leave the final value to Go's
unspecified map iteration order. -/
abbrev canonKeysNodup (hs : List (String × String)) : Prop :=
  (hs.map (fun p => canonicalMIMEHeaderKey p.1)).Nodup

/-- Whether some caller map key canonicalizes to the given header name. -/
def hasCanonKey (hs : List (String × String)) (k : String) : Bool :=
  hs.any (fun p => canonicalMIMEHeaderKey p.1 == k)

/-- Concrete parameters: a caller supplied User-Agent header. -/
def exampleUAParams : RequestParams :=
  { url := "https://example.com"
    method := "GET"
    ja3Profile := "chrome"
    headers := [("User-Agent", "custom-agent")]
    requestBody := "" }

/-- Concrete parameters: the spec's POST scenario with a Content-Type
header and the JSON body containing the pair a maps to 1. -/
def examplePostParams : RequestParams :=
  { url := "https://example.com"
    method := "POST"
    ja3Profile := "chrome"
    headers := [("Content-Type", "application/json")]
    requestBody := "\x7b\x22a\x22:1\x7d" }

/-- Concrete parameters: the POST scenario body with no extra headers. -/
def examplePostNoHeader : RequestParams :=
  { url := "https://example.com"
    method := "POST"
    ja3Profile := "chrome"
    headers := []
    requestBody := "\x7b\x22a\x22:1\x7d" }

/-- Concrete parameters: the iOS profile with no caller headers. -/
def exampleIOSParams : RequestParams :=
  { url := "https://example.com"
    method := "GET"
    ja3Profile := "iOS"
    headers := []
    requestBody := "" }

/-- Concrete parameters: a lower case method handed directly to the core. -/
def exampleLowerMethodParams : RequestParams :=
  { url := "https://example.com"
    method := "get"
    ja3Profile := "Chrome"
    headers := []
    requestBody := "" }

/-- Error classification of Go net.SplitHostPort (net/ipsock.go); the
constructors stand for the address error strings the function produces:
missing port in address, too many colons in address, missing close bracket,
unexpected open bracket, unexpected close bracket. -/
inductive AddrError where
  | missingPort
  | tooManyColons
  | missingCloseBracket
  | unexpectedOpenBracket
  | unexpectedCloseBracket
deriving DecidableEq

/-- Index of the last occurrence of a character in a list, Go's
last(hostport, byte) helper. -/
def lastIdx (l : List Char) (c : Char) : Option Nat :=
  match l.reverse.findIdx? (fun x => x == c) with
  | none => none
  | some j => some (l.length - 1 - j)

/-- Embedding of Go net.SplitHostPort: the port starts after the last
colon; a leading open bracket introduces a bracketed (IPv6) host whose
close bracket must sit just before that colon; otherwise the host is
everything before the last colon and may itself contain no colon; stray
brackets are rejected. -/
def splitHostPort (hostport : String) : Except AddrError (String × String) :=
  let s := hostport.data
  match lastIdx s ':' with
  | none => .error .missingPort
  | some i =>
    let hostjk : Except AddrError (List Char × Nat × Nat) :=
      if s.head? = some '[' then
        match s.findIdx? (fun x => x == ']') with
        | none => .error .missingCloseBracket
        | some e =>
          if e + 1 = s.length then .error .missingPort
          else if e + 1 = i then .ok ((s.drop 1).take (e - 1), 1, e + 1)
          else if (s.drop (e + 1)).head? = some ':' then .error .tooManyColons
          else .error .missingPort
      else
        if (s.take i).contains ':' then .error .tooManyColons
        else .ok (s.take i, 0, 0)
    match hostjk with
    | .error er => .error er
    | .ok (host, j, k) =>
      if (s.drop j).contains '[' then .error .unexpectedOpenBracket
      else if (s.drop k).contains ']' then .error .unexpectedCloseBracket
      else .ok (String.mk host, String.mk (s.drop (i + 1)))

/-- The SNI derivation of dialTLS (requester.go, lines 61 to 65): the host
part of the address, or the whole address when the split fails. -/
def sniFor (addr : String) : String :=
  match splitHostPort addr with
  | .ok hp => hp.1
  | .error _ => addr

/-- The utls.Config constructed by dialTLS (requester.go, lines 67 to 71). -/
structure UtlsConfig where
  serverName : String
  insecureSkipVerify : Bool
deriving DecidableEq

/-- A handshake completed TLS connection as dialTLS returns it: the
configuration it was driven with and the descriptor that shaped the
ClientHello. -/
structure TLSConn where
  sni : String
  insecureSkipVerify : Bool
  helloID : ClientHelloID
deriving DecidableEq

/-- Stage tagged error of the dial function: either the raw TCP dial failed
or the TLS handshake failed; the carried string is the underlying error,
propagated unchanged. -/
inductive DialStageError where
  | dialErr (msg : String)
  | handshakeErr (msg : String)
deriving DecidableEq

/-- Oracle for the two fallible external steps of dialTLS: the raw dial
(dialer.Dial) and the TLS handshake (uconn.Handshake); some message means
the step fails with that error, none means it succeeds. -/
structure NetOracle where
  rawDial : Option String
  handshake : Option String
deriving DecidableEq

/-- Observable outcome of one dialTLS call: the returned value, whether a
handshake was attempted, whether the underlying raw connection ended up
closed by dialTLS itself, and the utls.Config constructed (none when the
dial never got that far). -/
structure DialOutcome where
  result : Except DialStageError TLSConn
  handshakeAttempted : Bool
  underlyingClosed : Bool
  configUsed : Option UtlsConfig

/-- Embedding of the dialTLS closure (requester.go, lines 54 to 82): dial
the raw connection, returning the dial error unchanged on failure with no
handshake attempted; otherwise build the utls.Config (SNI from the host
part, certificate verification disabled), drive the handshake, closing the
connection and returning the handshake error on failure; on success return
the secured connection. -/
def dialTLS (hello : ClientHelloID) (net : NetOracle) (addr : String) : DialOutcome :=
  match net.rawDial with
  | some e =>
      { result := .error (.dialErr e)
        handshakeAttempted := false
        underlyingClosed := false
        configUsed := none }
  | none =>
      let config : UtlsConfig := { serverName := sniFor addr, insecureSkipVerify := true }
      match net.handshake with
      | some e =>
          { result := .error (.handshakeErr e)
            handshakeAttempted := true
            underlyingClosed := true
            configUsed := some config }
      | none =>
          { result := .ok { sni := config.serverName
                            insecureSkipVerify := config.insecureSkipVerify
                            helloID := hello }
            handshakeAttempted := true
            underlyingClosed := false
            configUsed := some config }

/-- Model of crypto/tls Config as used for the transport's
TLSClientConfig (requester.go, line 88). -/
structure TLSClientConfig where
  insecureSkipVerify : Bool
deriving DecidableEq

/-- Model of the http.Transport configuration of the client. -/
structure HTTPTransportConfig where
  tlsClientConfig : TLSClientConfig
deriving DecidableEq

/-- The transport installed into the http.Client (requester.go, lines 85
to 91): the custom dial function plus a TLSClientConfig that also disables
certificate verification. -/
def clientTransport : HTTPTransportConfig :=
  { tlsClientConfig := { insecureSkipVerify := true } }

/-- Error produced by the CLI header flag parser; formatError stands for
the Go message: header must be in Key colon Value format. -/
inductive FlagError where
  | formatError
deriving DecidableEq

/-- ASCII fragment of unicode.IsSpace as used by strings.TrimSpace (codes
9 to 13 and 32). -/
def isSpaceChar (c : Char) : Bool :=
  c == ' ' || c == '\t' || c == '\n' || c.toNat == 11 || c.toNat == 12 || c == '\r'

/-- Embedding of Go strings.TrimSpace on ASCII strings. -/
def trimSpace (s : String) : String :=
  String.mk (((s.data.dropWhile isSpaceChar).reverse.dropWhile isSpaceChar).reverse)

/-- Embedding of strings.SplitN(value, colon, 2): split at the first colon,
none when the string has no colon (in which case SplitN yields one part and
the flag parser rejects). -/
def splitOnceColon (s : String) : Option (String × String) :=
  match s.data.findIdx? (fun c => c == ':') with
  | none => none
  | some i => some (String.mk (s.data.take i), String.mk (s.data.drop (i + 1)))

/-- Go map assignment m[k] = v on the association list model: overwrite the
entry when the exact key is present, append it otherwise. -/
def mapSet (m : List (String × String)) (k v : String) : List (String × String) :=
  if m.any (fun p => p.1 == k) then
    m.map (fun p => if p.1 == k then (k, v) else p)
  else
    m ++ [(k, v)]

/-- Embedding of headersFlag.Set (main.go, lines 24 to 33): reject with a
format error when the argument has no colon, otherwise trim both parts and
store the pair in the accumulated map.  The map is passed and returned
explicitly; on error no new map is produced, which models that the Go
method returns before touching the receiver. -/
def headersFlagSet (m : List (String × String)) (value : String) :
    Except FlagError (List (String × String)) :=
  match splitOnceColon value with
  | none => .error .formatError
  | some kv => .ok (mapSet m (trimSpace kv.1) (trimSpace kv.2))

/-- C1: profile resolution is a pure, case insensitive lookup over a fixed
table: chrome, firefox, ios, safari and random in any capitalization map to
HelloChrome_108, HelloFirefox_108, HelloIOS_16, HelloSafari_16_0 and
HelloRandomized respectively; every other name resolves to chrome's
descriptor with the fallback flag false rather than an error; resolution is
a pure function, so resolving the same name twice yields equal descriptors;
and the first component agrees with the source switch selectClientHello. -/
theorem resolve_profile_table (s : String) :
    (lowerStr s = "chrome" → resolveClientHello s = (HelloChrome_108, true)) ∧
    (lowerStr s = "firefox" → resolveClientHello s = (HelloFirefox_108, true)) ∧
    (lowerStr s = "ios" → resolveClientHello s = (HelloIOS_16, true)) ∧
    (lowerStr s = "safari" → resolveClientHello s = (HelloSafari_16_0, true)) ∧
    (lowerStr s = "random" → resolveClientHello s = (HelloRandomized, true)) ∧
    (lowerStr s ∉ (["chrome", "firefox", "ios", "safari", "random"] : List String) →
      resolveClientHello s = (HelloChrome_108, false)) ∧
    resolveClientHello s = resolveClientHello s ∧
    (resolveClientHello s).1 = selectClientHello s := by
  refine ⟨?_, ?_, ?_, ?_, ?_, ?_, rfl, ?_⟩
  · intro h; simp only [resolveClientHello]; rw [h]; decide
  · intro h; simp only [resolveClientHello]; rw [h]; decide
  · intro h; simp only [resolveClientHello]; rw [h]; decide
  · intro h; simp only [resolveClientHello]; rw [h]; decide
  · intro h; simp only [resolveClientHello]; rw [h]; decide
  · intro h
    simp only [resolveClientHello]
    split_ifs with h1 h2 h3 h4 h5
    · exact absurd (by simp [h1]) h
    · exact absurd (by simp [h2]) h
    · exact absurd (by simp [h3]) h
    · exact absurd (by simp [h4]) h
    · exact absurd (by simp [h5]) h
    · rfl
  · simp only [resolveClientHello, selectClientHello]
    split_ifs <;> rfl

/-- Witness for C1 at concrete inputs: mixed capitalization resolves and an
unknown name falls back to chrome with the flag false. -/
theorem resolve_profile_table_witness :
    resolveClientHello "ChRoMe" = (HelloChrome_108, true) ∧
    resolveClientHello "bogus" = (HelloChrome_108, false) := by
  constructor
  · exact (resolve_profile_table "ChRoMe").1 (by decide)
  · exact (resolve_profile_table "bogus").2.2.2.2.2.1 (by decide)

/-- Helper: find? returns the head of the filtered list. -/
theorem find_eq_head_filter {α : Type} (p : α → Bool) (l : List α) :
    l.find? p = (l.filter p).head? := by
  induction l with
  | nil => rfl
  | cons a t ih =>
    by_cases hpa : p a = true
    · rw [List.find?_cons_of_pos t hpa, List.filter_cons_of_pos hpa, List.head?_cons]
    · rw [List.find?_cons_of_neg t hpa, List.filter_cons_of_neg hpa, ih]

/-- Helper: an inner filter by a predicate implied by the outer one is
absorbed. -/
theorem filter_filter_of_imp {α : Type} (q r : α → Bool) (l : List α)
    (h : ∀ x, q x = true → r x = true) :
    (l.filter r).filter q = l.filter q := by
  induction l with
  | nil => rfl
  | cons a t ih =>
    cases hr : r a
    · have hq : q a = false := by
        cases hqa : q a
        · rfl
        · rw [h a hqa] at hr; cases hr
      simp [List.filter_cons, hr, hq, ih]
    · cases hq : q a <;> simp [List.filter_cons, hr, hq, ih]

/-- Helper: after headerSet the entries stored under the written canonical
key are exactly the one written pair. -/
theorem headerSet_filter_self (h : HeaderMap) (k v : String) :
    (headerSet h k v).filter (fun p => p.1 == canonicalMIMEHeaderKey k)
      = [(canonicalMIMEHeaderKey k, [v])] := by
  unfold headerSet
  rw [List.filter_append]
  have h1 : (h.filter (fun p => p.1 != canonicalMIMEHeaderKey k)).filter
      (fun p => p.1 == canonicalMIMEHeaderKey k) = [] := by
    rw [List.filter_eq_nil_iff]
    intro a ha
    have h2 := List.of_mem_filter ha
    simp only [bne_iff_ne, ne_eq] at h2
    simp only [beq_iff_eq]
    exact h2
  rw [h1]
  simp

/-- Helper: headerSet under one canonical key leaves the entries under any
other canonical key unchanged. -/
theorem headerSet_filter_other (h : HeaderMap) (k v key : String)
    (hne : canonicalMIMEHeaderKey key ≠ canonicalMIMEHeaderKey k) :
    (headerSet h k v).filter (fun p => p.1 == canonicalMIMEHeaderKey key)
      = h.filter (fun p => p.1 == canonicalMIMEHeaderKey key) := by
  unfold headerSet
  rw [List.filter_append]
  have h1 : ((([(canonicalMIMEHeaderKey k, [v])] : HeaderMap)).filter
      (fun p => p.1 == canonicalMIMEHeaderKey key)) = [] := by
    simp [List.filter_cons]
    intro hc
    exact absurd hc.symm hne
  rw [h1, List.append_nil]
  apply filter_filter_of_imp
  intro x hx
  simp only [beq_iff_eq] at hx
  simp only [bne_iff_ne, ne_eq, hx]
  intro hcc
  exact hne (hcc ▸ rfl)

/-- Helper: folding header sets whose canonical keys all differ from the
observed one leaves its entries unchanged. -/
theorem applyHeaders_filter_notmem (hs : List (String × String)) (h0 : HeaderMap)
    (key : String)
    (hnot : ∀ p ∈ hs, canonicalMIMEHeaderKey p.1 ≠ canonicalMIMEHeaderKey key) :
    (applyHeaders hs h0).filter (fun p => p.1 == canonicalMIMEHeaderKey key)
      = h0.filter (fun p => p.1 == canonicalMIMEHeaderKey key) := by
  induction hs generalizing h0 with
  | nil => rfl
  | cons a t ih =>
    have step : applyHeaders (a :: t) h0 = applyHeaders t (headerSet h0 a.1 a.2) := rfl
    rw [step]
    rw [ih (headerSet h0 a.1 a.2) (fun p hp => hnot p (List.mem_cons_of_mem a hp))]
    exact headerSet_filter_other h0 a.1 a.2 key
      (Ne.symm (hnot a (List.mem_cons_self a t)))

/-- Helper: when the canonical keys of the caller list are pairwise
distinct, the fold stores under each caller key exactly its value. -/
theorem applyHeaders_filter_mem (hs : List (String × String)) (h0 : HeaderMap)
    (k v : String) (hmem : (k, v) ∈ hs)
    (hnd : (hs.map (fun p => canonicalMIMEHeaderKey p.1)).Nodup) :
    (applyHeaders hs h0).filter (fun p => p.1 == canonicalMIMEHeaderKey k)
      = [(canonicalMIMEHeaderKey k, [v])] := by
  induction hs generalizing h0 with
  | nil => cases hmem
  | cons a t ih =>
    rw [List.map_cons, List.nodup_cons] at hnd
    obtain ⟨hna, hndt⟩ := hnd
    have step : applyHeaders (a :: t) h0 = applyHeaders t (headerSet h0 a.1 a.2) := rfl
    rw [step]
    rcases List.mem_cons.mp hmem with heq | hmemt
    · have ha1 : a.1 = k := by rw [← heq]
      have hnott : ∀ p ∈ t, canonicalMIMEHeaderKey p.1 ≠ canonicalMIMEHeaderKey k := by
        intro p hp hcc
        apply hna
        rw [ha1, ← hcc]
        exact List.mem_map_of_mem (fun q => canonicalMIMEHeaderKey q.1) hp
      rw [applyHeaders_filter_notmem t (headerSet h0 a.1 a.2) k hnott]
      rw [← heq]
      exact headerSet_filter_self h0 k v
    · exact ih (headerSet h0 a.1 a.2) hmemt hndt

/-- Helper: headerGet through the filter characterization. -/
theorem headerGet_eq_filter (h : HeaderMap) (key : String) :
    headerGet h key
      = ((h.filter (fun p => p.1 == canonicalMIMEHeaderKey key)).head?).map Prod.snd := by
  unfold headerGet
  rw [find_eq_head_filter]

/-- Helper: the four observable fields of a successfully built request. -/
theorem buildRequest_eq_some (params : RequestParams) (req : Request)
    (h : buildRequest params = some req) :
    req.method = (if params.method = "" then "GET" else params.method) ∧
    req.url = params.url ∧
    req.body = (if params.requestBody != "" then params.requestBody else "") ∧
    req.header = applyHeaders params.headers
      (if (mapLookup params.headers "User-Agent").isSome then ([] : HeaderMap)
       else headerSet [] "User-Agent" (defaultUserAgent params.ja3Profile)) := by
  simp only [buildRequest] at h
  split at h
  case isTrue hm =>
    split at h
    · rw [Option.some.injEq] at h
      subst h
      refine ⟨?_, rfl, rfl, rfl⟩
      rw [if_pos hm]
    · exact Option.noConfusion h
  case isFalse hm =>
    split at h
    · rw [Option.some.injEq] at h
      subst h
      refine ⟨?_, rfl, rfl, rfl⟩
      rw [if_neg hm]
    · exact Option.noConfusion h

/-- Helper: when no caller map key canonicalizes to User-Agent, the built
request carries the profile's default User-Agent. -/
theorem headerGet_build_default (params : RequestParams) (req : Request)
    (h : buildRequest params = some req)
    (hnone : hasCanonKey params.headers "User-Agent" = false) :
    headerGet req.header "User-Agent" = some [defaultUserAgent params.ja3Profile] := by
  obtain ⟨-, -, -, hh⟩ := buildRequest_eq_some params req h
  have hcanUA : canonicalMIMEHeaderKey "User-Agent" = "User-Agent" := by decide
  have hall : ∀ p ∈ params.headers,
      canonicalMIMEHeaderKey p.1 ≠ canonicalMIMEHeaderKey "User-Agent" := by
    intro p hp hc
    have htrue : params.headers.any
        (fun p => canonicalMIMEHeaderKey p.1 == "User-Agent") = true :=
      List.any_eq_true.mpr ⟨p, hp, by simp [hc, hcanUA]⟩
    simp only [hasCanonKey] at hnone
    rw [htrue] at hnone
    cases hnone
  have hlook : mapLookup params.headers "User-Agent" = none := by
    have hfind : params.headers.find? (fun p => p.1 == "User-Agent") = none := by
      rw [List.find?_eq_none]
      intro p hp hbe
      have hb : p.1 = "User-Agent" := by
        have := hbe
        simp only [beq_iff_eq] at this
        exact this
      exact hall p hp (by rw [hb])
    unfold mapLookup
    rw [hfind]
    rfl
  have hwua : (if (mapLookup params.headers "User-Agent").isSome then ([] : HeaderMap)
      else headerSet [] "User-Agent" (defaultUserAgent params.ja3Profile))
      = headerSet [] "User-Agent" (defaultUserAgent params.ja3Profile) := by
    rw [hlook]
    rfl
  rw [headerGet_eq_filter, hh, hwua]
  rw [applyHeaders_filter_notmem params.headers _ "User-Agent" hall]
  rw [headerSet_filter_self ([] : HeaderMap) "User-Agent"
    (defaultUserAgent params.ja3Profile)]
  rfl

/-- C3: if the caller map contains an entry whose canonical header name is
User-Agent, the assembled request's User-Agent is exactly the caller's
value (the source checks only the exact key User-Agent before applying the
default, but the header loop then canonicalizes every caller key through
Header.Set, so the caller's value wins for any spelling); when no caller
entry names User-Agent, the assembled request carries the resolved
profile's default identification value.  The canonKeysNodup hypothesis is
the claim's own presupposition that the caller holds one value per header
name. -/
theorem user_agent_precedence (params : RequestParams) (req : Request)
    (hnd : canonKeysNodup params.headers)
    (h : buildRequest params = some req) :
    (∀ k v, (k, v) ∈ params.headers → canonicalMIMEHeaderKey k = "User-Agent" →
      headerGet req.header "User-Agent" = some [v]) ∧
    (hasCanonKey params.headers "User-Agent" = false →
      headerGet req.header "User-Agent" = some [defaultUserAgent params.ja3Profile]) := by
  obtain ⟨-, -, -, hh⟩ := buildRequest_eq_some params req h
  constructor
  · intro k v hmem hck
    rw [headerGet_eq_filter, hh]
    have hcanUA : canonicalMIMEHeaderKey "User-Agent" = "User-Agent" := by decide
    rw [hcanUA]
    have hf := applyHeaders_filter_mem params.headers
      (if (mapLookup params.headers "User-Agent").isSome then ([] : HeaderMap)
       else headerSet [] "User-Agent" (defaultUserAgent params.ja3Profile))
      k v hmem hnd
    rw [hck] at hf
    rw [hf]
    rfl
  · intro hnone
    exact headerGet_build_default params req h hnone

/-- Witness for C3: a caller supplied User-Agent survives verbatim. -/
theorem user_agent_precedence_witness :
    ((buildRequest exampleUAParams).map
      (fun r => headerGet r.header "User-Agent")) = some (some ["custom-agent"]) := by
  cases hb : buildRequest exampleUAParams with
  | none => exact absurd hb (by decide)
  | some req =>
    have h := (user_agent_precedence exampleUAParams req (by decide) hb).1
      "User-Agent" "custom-agent" (by decide) (by decide)
    rw [Option.map_some']
    rw [h]

/-- C5: each caller supplied header key appears in the assembled request
with exactly one value, the caller's value for that key: the entries stored
under its canonical name are exactly the one written pair, so caller
headers overwrite any same named header set earlier, the identification
header included.  The canonKeysNodup hypothesis is the claim's per key
reading: one caller value per canonical header name (Go map iteration
order would otherwise pick a survivor arbitrarily). -/
theorem caller_header_single_value (params : RequestParams) (req : Request)
    (hnd : canonKeysNodup params.headers)
    (h : buildRequest params = some req) :
    ∀ k v, (k, v) ∈ params.headers →
      req.header.filter (fun p => p.1 == canonicalMIMEHeaderKey k)
        = [(canonicalMIMEHeaderKey k, [v])] ∧
      headerGet req.header k = some [v] := by
  obtain ⟨-, -, -, hh⟩ := buildRequest_eq_some params req h
  intro k v hmem
  have hf := applyHeaders_filter_mem params.headers
    (if (mapLookup params.headers "User-Agent").isSome then ([] : HeaderMap)
     else headerSet [] "User-Agent" (defaultUserAgent params.ja3Profile))
    k v hmem hnd
  constructor
  · rw [hh]
    exact hf
  · rw [headerGet_eq_filter, hh, hf]
    rfl

/-- Witness for C5, the spec's POST scenario: profile chrome with header
Content-Type set to application/json yields exactly one Content-Type entry
holding that value. -/
theorem caller_header_single_value_witness :
    ((buildRequest examplePostParams).map
      (fun r => r.header.filter (fun p => p.1 == "Content-Type")))
      = some [("Content-Type", ["application/json"])] := by
  cases hb : buildRequest examplePostParams with
  | none => exact absurd hb (by decide)
  | some req =>
    have h := (caller_header_single_value examplePostParams req (by decide) hb
      "Content-Type" "application/json" (by decide)).1
    have hcan : canonicalMIMEHeaderKey "Content-Type" = "Content-Type" := by decide
    rw [hcan] at h
    rw [Option.map_some']
    rw [h]

/-- C6: the assembled request's body is exactly the supplied request body
string, and an empty supplied body yields an empty body; the source's
branch picks strings.NewReader of the body when nonempty and of the empty
string otherwise, which is the identity on the body string. -/
theorem request_body_verbatim (params : RequestParams) (req : Request)
    (h : buildRequest params = some req) :
    req.body = params.requestBody ∧ (params.requestBody = "" → req.body = "") := by
  obtain ⟨-, -, hb, -⟩ := buildRequest_eq_some params req h
  have hbody : req.body = params.requestBody := by
    rw [hb]
    by_cases hrb : params.requestBody = ""
    · rw [hrb]
      rfl
    · simp [hrb]
  exact ⟨hbody, fun he => by rw [hbody, he]⟩

/-- Witness for C6: the POST body of the spec scenario comes through
byte for byte. -/
theorem request_body_verbatim_witness :
    ((buildRequest examplePostNoHeader).map Request.body)
      = some "\x7b\x22a\x22:1\x7d" := by
  cases hb : buildRequest examplePostNoHeader with
  | none => exact absurd hb (by decide)
  | some req =>
    have h := request_body_verbatim examplePostNoHeader req hb
    rw [Option.map_some']
    rw [h.1]
    rfl

/-- C9: when the caller map has no User-Agent entry and the profile name
lower cases to ios, or to anything outside chrome, firefox and safari, the
default User-Agent switch has no matching arm and applies the chrome
identification string, while the TLS descriptor switch does have an ios
arm, so such a request carries a Chrome User-Agent over an iOS ClientHello. -/
theorem ios_profile_chrome_ua (params : RequestParams) (req : Request)
    (h : buildRequest params = some req)
    (hprof : lowerStr params.ja3Profile ∉ (["chrome", "firefox", "safari"] : List String)) :
    defaultUserAgent params.ja3Profile = chromeUA ∧
    (hasCanonKey params.headers "User-Agent" = false →
      headerGet req.header "User-Agent" = some [chromeUA]) ∧
    (lowerStr params.ja3Profile = "ios" →
      selectClientHello params.ja3Profile = HelloIOS_16) := by
  have hdua : defaultUserAgent params.ja3Profile = chromeUA := by
    simp only [defaultUserAgent]
    split_ifs with h1 h2 h3
    · rfl
    · exact absurd (by simp [h2]) hprof
    · exact absurd (by simp [h3]) hprof
    · rfl
  refine ⟨hdua, ?_, ?_⟩
  · intro hnone
    have := headerGet_build_default params req h hnone
    rw [hdua] at this
    exact this
  · intro hio
    simp only [selectClientHello]
    rw [hio]
    decide

/-- Witness for C9: profile iOS with no caller headers gets the chrome
User-Agent string while selecting the iOS descriptor. -/
theorem ios_profile_chrome_ua_witness :
    ((buildRequest exampleIOSParams).map
      (fun r => headerGet r.header "User-Agent")) = some (some [chromeUA]) ∧
    selectClientHello "iOS" = HelloIOS_16 := by
  cases hb : buildRequest exampleIOSParams with
  | none => exact absurd hb (by decide)
  | some req =>
    have h := ios_profile_chrome_ua exampleIOSParams req hb (by decide)
    constructor
    · rw [Option.map_some']
      rw [h.2.1 rfl]
    · exact h.2.2 (by decide)

/-- Counterexample for C4 as stated: SendRequest itself performs no upper
casing of the method; RequestParams with method get are accepted and the
assembled request's method is get, not its upper case normalization GET. -/
theorem method_not_normalized_cex :
    ((buildRequest exampleLowerMethodParams).map Request.method) = some "get" ∧
    upperStr "get" = "GET" ∧ ("get" : String) ≠ "GET" := by
  refine ⟨by decide, by decide, by decide⟩

/-- C4 as amended: the upper case normalization happens in the CLI shell
(main.go, lines 64 to 71), not in SendRequest, so for any request built
from a nonempty CLI method flag the assembled method is the upper case
normalization of that flag (an empty method flag would instead default to
GET inside http.NewRequest), and the target URL is used as given with no
implicit scheme rewriting. -/
theorem cli_method_normalized (url m ja3 data : String)
    (hs : List (String × String)) (req : Request) (hm : m ≠ "")
    (hb : buildRequest (cliRequestParams url m ja3 hs data) = some req) :
    req.method = upperStr m ∧ req.url = url := by
  have hne : upperStr m ≠ "" := by
    intro hup
    have hmap : m.data.map toUpperChar = ([] : List Char) :=
      congrArg String.data hup
    have hmd : m.data = [] := List.map_eq_nil_iff.mp hmap
    apply hm
    exact String.ext hmd
  obtain ⟨h1, h2, -, -⟩ := buildRequest_eq_some _ _ hb
  constructor
  · rw [h1]
    simp only [cliRequestParams]
    rw [if_neg hne]
  · exact h2.trans rfl

/-- Witness for C4's amended claim: a CLI invocation with method post
yields an assembled method POST and the URL unchanged. -/
theorem cli_method_normalized_witness :
    ((buildRequest (cliRequestParams "https://example.com" "post" "chrome" [] "")).map
      (fun r => (r.method, r.url)))
      = some (upperStr "post", "https://example.com") := by
  cases hb : buildRequest (cliRequestParams "https://example.com" "post" "chrome" [] "") with
  | none => exact absurd hb (by decide)
  | some req =>
    have h := cli_method_normalized "https://example.com" "post" "chrome" "" [] req
      (by decide) hb
    rw [Option.map_some']
    rw [h.1, h.2]

/-- Helper: find? skips a prefix in which nothing satisfies the predicate. -/
theorem find_append_of_none {α : Type} (p : α → Bool) (l1 l2 : List α)
    (h : l1.find? p = none) : (l1 ++ l2).find? p = l2.find? p := by
  induction l1 with
  | nil => rfl
  | cons a t ih =>
    by_cases hpa : p a = true
    · rw [List.find?_cons_of_pos t hpa] at h
      cases h
    · rw [List.cons_append, List.find?_cons_of_neg _ hpa]
      rw [List.find?_cons_of_neg t hpa] at h
      exact ih h

/-- Helper: overwriting the entries holding a present key leaves the first
matching entry carrying the new pair. -/
theorem find_map_overwrite (m : List (String × String)) (k v : String)
    (hany : m.any (fun p => p.1 == k) = true) :
    (m.map (fun p => if p.1 == k then (k, v) else p)).find? (fun p => p.1 == k)
      = some (k, v) := by
  induction m with
  | nil => cases hany
  | cons a t ih =>
    rw [List.map_cons]
    by_cases ha : (a.1 == k) = true
    · rw [if_pos ha]
      rw [List.find?_cons_of_pos _ (by simp)]
    · rw [if_neg ha]
      have hstep : List.find? (fun p => p.1 == k)
          (a :: List.map (fun p => if p.1 == k then (k, v) else p) t)
          = List.find? (fun p => p.1 == k)
            (List.map (fun p => if p.1 == k then (k, v) else p) t) :=
        List.find?_cons_of_neg _ ha
      rw [hstep]
      apply ih
      simp only [List.any_cons, Bool.or_eq_true] at hany
      rcases hany with h1 | h2
      · exact absurd h1 ha
      · exact h2

/-- Helper: after a Go map assignment the assigned key holds the assigned
value. -/
theorem mapLookup_mapSet_self (m : List (String × String)) (k v : String) :
    mapLookup (mapSet m k v) k = some v := by
  unfold mapSet mapLookup
  by_cases hany : m.any (fun p => p.1 == k) = true
  · rw [if_pos hany, find_map_overwrite m k v hany]
    rfl
  · rw [if_neg hany]
    have hfind : m.find? (fun p => p.1 == k) = none := by
      rw [List.find?_eq_none]
      intro p hp hbe
      exact hany (List.any_eq_true.mpr ⟨p, hp, hbe⟩)
    rw [find_append_of_none _ m _ hfind]
    rw [List.find?_cons_of_pos _ (by simp)]
    rfl

/-- Helper: a Go map assignment keeps the keys pairwise distinct. -/
theorem mapSet_keys_nodup (m : List (String × String)) (k v : String)
    (hnd : (m.map Prod.fst).Nodup) : ((mapSet m k v).map Prod.fst).Nodup := by
  unfold mapSet
  by_cases hany : m.any (fun p => p.1 == k) = true
  · rw [if_pos hany]
    have hkeys : (m.map (fun p => if p.1 == k then (k, v) else p)).map Prod.fst
        = m.map Prod.fst := by
      rw [List.map_map]
      apply List.map_congr_left
      intro p hp
      by_cases hpk : (p.1 == k) = true
      · simp only [Function.comp_apply, if_pos hpk]
        exact (beq_iff_eq.mp hpk).symm
      · simp only [Function.comp_apply, if_neg hpk]
    rw [hkeys]
    exact hnd
  · rw [if_neg hany]
    rw [List.map_append]
    refine List.Nodup.append hnd (List.nodup_singleton k) ?_
    intro a ha hb
    simp only [List.map_cons, List.map_nil] at hb
    rw [List.mem_singleton] at hb
    subst hb
    rcases List.mem_map.mp ha with ⟨p, hp, hpk⟩
    exact hany (List.any_eq_true.mpr ⟨p, hp, by simp [hpk]⟩)

/-- C10: a CLI header argument without a colon is rejected with the format
error, producing no new map (the Go method returns before assigning, so the
accumulated map is unchanged); an argument with a colon is accepted, the
trimmed pair is assigned into the map, the assigned key then holds exactly
the assigned value, and the map's keys stay pairwise distinct. -/
theorem header_flag_parse (m : List (String × String)) (value : String) :
    ((∀ c ∈ value.data, ¬(c = ':')) →
      headersFlagSet m value = .error .formatError) ∧
    (∀ k v, splitOnceColon value = some (k, v) →
      headersFlagSet m value = .ok (mapSet m (trimSpace k) (trimSpace v)) ∧
      mapLookup (mapSet m (trimSpace k) (trimSpace v)) (trimSpace k)
        = some (trimSpace v) ∧
      ((m.map Prod.fst).Nodup →
        ((mapSet m (trimSpace k) (trimSpace v)).map Prod.fst).Nodup)) := by
  constructor
  · intro hno
    unfold headersFlagSet
    have hsp : splitOnceColon value = none := by
      unfold splitOnceColon
      rw [List.findIdx?_eq_none_iff.mpr]
      intro c hc
      exact beq_eq_false_iff_ne.mpr (hno c hc)
    rw [hsp]
  · intro k v hsp
    unfold headersFlagSet
    rw [hsp]
    exact ⟨rfl, mapLookup_mapSet_self m (trimSpace k) (trimSpace v),
      fun hnd => mapSet_keys_nodup m (trimSpace k) (trimSpace v) hnd⟩

/-- Witness for C10: an argument without a colon is rejected, and the
header Content-Type colon application/json is stored trimmed. -/
theorem header_flag_parse_witness :
    headersFlagSet [] "NoColonHere" = .error .formatError ∧
    mapLookup (mapSet [] (trimSpace "Content-Type") (trimSpace " application/json"))
        (trimSpace "Content-Type") = some (trimSpace " application/json") ∧
    trimSpace " application/json" = "application/json" := by
  refine ⟨?_, ?_, by decide⟩
  · exact (header_flag_parse [] "NoColonHere").1 (by decide)
  · exact ((header_flag_parse [] "Content-Type: application/json").2 "Content-Type"
      " application/json" rfl).2.1

/-- C2: the dial function's staged error behavior: a raw connect failure is
propagated unchanged as a dial stage error and no handshake is attempted; a
handshake failure closes the underlying connection and yields a handshake
stage error, which is distinct from every dial stage error; a connection is
returned only when both the dial and the handshake succeeded. -/
theorem dial_stage_errors (hello : ClientHelloID) (net : NetOracle) (addr : String) :
    (∀ e, net.rawDial = some e →
      dialTLS hello net addr
        = { result := .error (.dialErr e), handshakeAttempted := false,
            underlyingClosed := false, configUsed := none }) ∧
    (∀ e, net.rawDial = none → net.handshake = some e →
      (dialTLS hello net addr).result = .error (.handshakeErr e) ∧
      (dialTLS hello net addr).underlyingClosed = true ∧
      (dialTLS hello net addr).handshakeAttempted = true ∧
      ∀ e2, DialStageError.handshakeErr e ≠ DialStageError.dialErr e2) ∧
    (∀ c, (dialTLS hello net addr).result = .ok c →
      net.rawDial = none ∧ net.handshake = none) := by
  refine ⟨?_, ?_, ?_⟩
  · intro e he
    simp only [dialTLS, he]
  · intro e hd hh
    simp only [dialTLS, hd, hh]
    refine ⟨trivial, trivial, trivial, ?_⟩
    intro e2 hcon
    exact DialStageError.noConfusion hcon
  · intro c hc
    cases hd : net.rawDial with
    | some e => simp [dialTLS, hd] at hc
    | none =>
      cases hh : net.handshake with
      | some e => simp [dialTLS, hd, hh] at hc
      | none => exact ⟨rfl, rfl⟩

/-- Witness for C2: a refused raw connection surfaces as a dial stage error
with no handshake attempt and nothing for dialTLS to close. -/
theorem dial_stage_errors_witness :
    dialTLS HelloChrome_108 { rawDial := some "connection refused", handshake := none }
        "example.com:443"
      = { result := .error (.dialErr "connection refused"), handshakeAttempted := false,
          underlyingClosed := false, configUsed := none } :=
  (dial_stage_errors HelloChrome_108
    { rawDial := some "connection refused", handshake := none } "example.com:443").1
    "connection refused" rfl

/-- C7: the Server Name Indication value placed in the handshake
configuration is the host portion of the address when it splits as host
colon port, and the full address string verbatim when the split fails; any
configuration dialTLS constructs carries exactly that value. -/
theorem sni_host_or_full_addr (addr : String) :
    (∀ h p, splitHostPort addr = .ok (h, p) → sniFor addr = h) ∧
    (∀ e, splitHostPort addr = .error e → sniFor addr = addr) ∧
    (∀ hello net cfg, (dialTLS hello net addr).configUsed = some cfg →
      cfg.serverName = sniFor addr) := by
  refine ⟨?_, ?_, ?_⟩
  · intro h p hsp
    unfold sniFor
    rw [hsp]
  · intro e hsp
    unfold sniFor
    rw [hsp]
  · intro hello net cfg hc
    cases hd : net.rawDial with
    | some e => simp [dialTLS, hd] at hc
    | none =>
      cases hh : net.handshake with
      | some e =>
        simp only [dialTLS, hd, hh] at hc
        rw [Option.some.injEq] at hc
        rw [← hc]
      | none =>
        simp only [dialTLS, hd, hh] at hc
        rw [Option.some.injEq] at hc
        rw [← hc]

/-- Witness for C7: a host colon port address yields the host as SNI, an
address without a port is used verbatim. -/
theorem sni_host_or_full_addr_witness :
    sniFor "example.com:443" = "example.com" ∧
    sniFor "no-port-here" = "no-port-here" := by
  constructor
  · exact (sni_host_or_full_addr "example.com:443").1 "example.com" "443" (by rfl)
  · exact (sni_host_or_full_addr "no-port-here").2.1 AddrError.missingPort (by rfl)

/-- C8: every handshake configuration the transport constructs disables
certificate verification: any utls.Config built by dialTLS has
insecureSkipVerify true, any connection it returns was driven with
insecureSkipVerify true, and the http.Transport's own TLSClientConfig also
sets it true; no code path performs certificate validation. -/
theorem insecure_skip_verify_always (hello : ClientHelloID) (net : NetOracle)
    (addr : String) :
    (∀ cfg, (dialTLS hello net addr).configUsed = some cfg →
      cfg.insecureSkipVerify = true) ∧
    (∀ c, (dialTLS hello net addr).result = .ok c → c.insecureSkipVerify = true) ∧
    clientTransport.tlsClientConfig.insecureSkipVerify = true := by
  refine ⟨?_, ?_, rfl⟩
  · intro cfg hc
    cases hd : net.rawDial with
    | some e => simp [dialTLS, hd] at hc
    | none =>
      cases hh : net.handshake with
      | some e =>
        simp only [dialTLS, hd, hh] at hc
        rw [Option.some.injEq] at hc
        rw [← hc]
      | none =>
        simp only [dialTLS, hd, hh] at hc
        rw [Option.some.injEq] at hc
        rw [← hc]
  · intro c hcres
    cases hd : net.rawDial with
    | some e => simp [dialTLS, hd] at hcres
    | none =>
      cases hh : net.handshake with
      | some e => simp [dialTLS, hd, hh] at hcres
      | none =>
        simp only [dialTLS, hd, hh] at hcres
        rw [Except.ok.injEq] at hcres
        rw [← hcres]

/-- Witness for C8: the configuration built for a successful dial to a
concrete address has certificate verification disabled. -/
theorem insecure_skip_verify_always_witness :
    ({ serverName := "example.com", insecureSkipVerify := true } : UtlsConfig).insecureSkipVerify
      = true :=
  (insecure_skip_verify_always HelloChrome_108 { rawDial := none, handshake := none }
    "example.com:443").1 { serverName := "example.com", insecureSkipVerify := true } (by rfl)

end StealthyScraper
